import Mathlib

set_option linter.unusedVariables false

/-!
Verification of the DocumentMCP server (src/mcp_server.py) and its demo
clients (src/mcp_client.py, src/elicitation_client.py).

The Python code is shallowly embedded: strings are Lean `String`s, Python
dictionaries become association lists, Python exceptions become `Except`,
and a tool's nested sub-request (sampling / elicitation / list-roots) is
passed in as the already-resolved outcome of the nested invoke, with
`Except.error` standing for "the caller-side handler raised".
-/

/-- Python's `str.startswith(pre)`: byte-for-byte (case-sensitive) prefix test,
modelled on the character list. -/
def pyStartsWith (s pre : String) : Bool :=
  List.isPrefixOf pre.data s.data

/-- Python's `str.lower()` (the source only lowercases ASCII argument values). -/
def pyLower (s : String) : String :=
  ⟨s.data.map Char.toLower⟩

/-- Python's `str.strip()`: drop leading and trailing whitespace. -/
def pyStrip (s : String) : String :=
  ⟨List.reverse (List.dropWhile Char.isWhitespace
    (List.reverse (List.dropWhile Char.isWhitespace s.data)))⟩

/-- Python dictionary lookup (`d.get(k)` / `k in d`), on an association list. -/
def dictLookup (k : String) : List (String × α) → Option α
  | [] => none
  | (k', v) :: rest => if k' = k then some v else dictLookup k rest

-- === COMPLETION DATA (src/mcp_server.py lines 19-30) ===

def LANGUAGES : List String :=
  ["python", "javascript", "typescript", "java", "go", "rust"]

def FRAMEWORKS : List (String × List String) :=
  [("python", ["fastapi", "flask", "django"]),
   ("javascript", ["express", "react", "vue"]),
   ("typescript", ["nestjs", "angular", "next"])]

def GITHUB_OWNERS : List String :=
  ["microsoft", "google", "facebook", "openai", "anthropic"]

def GITHUB_REPOS : List (String × List String) :=
  [("microsoft", ["vscode", "typescript", "playwright"]),
   ("google", ["angular", "tensorflow", "protobuf"]),
   ("openai", ["openai-python", "gpt-4", "whisper"])]

/-- `PromptReference | ResourceTemplateReference`: the two reference shapes
the completion handler dispatches on. -/
inductive CompletionRef where
  | prompt (name : String)
  | resourceTemplate (uri : String)
deriving DecidableEq

/-- `CompletionArgument`: the argument being completed (name and typed-so-far
value). -/
structure CompletionArgumentM where
  name : String
  value : String
deriving DecidableEq

/-- `Completion`: the candidate value list plus the pagination flag. -/
structure CompletionM where
  values : List String
  hasMore : Bool
deriving DecidableEq

/-- `CompletionContext | None`: `none` models a missing context object (or a
context whose `arguments` is `None`); `some args` models
`context.arguments`, an (association-list) dictionary that may be empty.
Python's truthiness test `if context and context.arguments` is therefore
"`some` of a non-empty list". -/
abbrev CompletionContextM := Option (List (String × String))

/-- `handle_completion` (src/mcp_server.py lines 77-129), returning `none`
where the Python handler falls through to `return None`. -/
def handle_completion (ref : CompletionRef) (argument : CompletionArgumentM)
    (context : CompletionContextM) : Option CompletionM :=
  match ref with
  | .prompt name =>
    if name = "review_code" then
      if argument.name = "language" then
        some ⟨LANGUAGES.filter (fun lang => pyStartsWith lang argument.value), false⟩
      else if argument.name = "focus" then
        some ⟨(["all", "security", "performance", "style"]).filter
          (fun f => pyStartsWith f argument.value), false⟩
      else none
    else if name = "setup_project" then
      if argument.name = "language" then
        some ⟨LANGUAGES.filter (fun lang => pyStartsWith lang argument.value), false⟩
      else if argument.name = "framework" then
        match context with
        | some (p :: ctxArgs) =>
          match dictLookup (pyLower ((dictLookup "language" (p :: ctxArgs)).getD ""))
              FRAMEWORKS with
          | some frameworks =>
            some ⟨frameworks.filter (fun fw => pyStartsWith fw argument.value), false⟩
          | none => none
        | _ => none
      else none
    else none
  | .resourceTemplate uri =>
    if uri = "github://repos/{owner}/{repo}" then
      if argument.name = "owner" then
        some ⟨GITHUB_OWNERS.filter (fun owner => pyStartsWith owner argument.value), false⟩
      else if argument.name = "repo" then
        match context with
        | some (p :: ctxArgs) =>
          match dictLookup (pyLower ((dictLookup "owner" (p :: ctxArgs)).getD ""))
              GITHUB_REPOS with
          | some repos =>
            some ⟨repos.filter (fun r => pyStartsWith r argument.value), false⟩
          | none => none
        | _ => none
      else none
    else none

-- === C1 ===

/-- C1 (amended): the dependent completion for `setup_project`/`framework`
with sibling context `language = python` returns exactly
`[fastapi, flask, django]`; with an unregistered sibling value such as
`ruby`, or with no sibling context at all, the handler returns no
completion object (Python `None`) — not an error and not the unconditional
set. -/
theorem handle_completion_dependent_framework :
    handle_completion (.prompt "setup_project") ⟨"framework", ""⟩
        (some [("language", "python")])
      = some ⟨["fastapi", "flask", "django"], false⟩
    ∧ handle_completion (.prompt "setup_project") ⟨"framework", ""⟩
        (some [("language", "ruby")]) = none
    ∧ handle_completion (.prompt "setup_project") ⟨"framework", ""⟩ none = none := by
  refine ⟨?_, ?_, ?_⟩ <;> decide

-- === C2 ===

/-- The static candidate lists declared in src/mcp_server.py: `LANGUAGES`,
the `focus` literal, the three `FRAMEWORKS` entries, `GITHUB_OWNERS` and the
three `GITHUB_REPOS` entries. -/
def candidateLists : List (List String) :=
  [LANGUAGES,
   ["all", "security", "performance", "style"],
   ["fastapi", "flask", "django"],
   ["express", "react", "vue"],
   ["nestjs", "angular", "next"],
   GITHUB_OWNERS,
   ["vscode", "typescript", "playwright"],
   ["angular", "tensorflow", "protobuf"],
   ["openai-python", "gpt-4", "whisper"]]

/-- Any completion result equal to a declared list filtered by the prefix
test satisfies the three result invariants. -/
theorem completion_leaf (L : List String) (pv : String) (hnd : L.Nodup)
    (hmem : L ∈ candidateLists) (c : CompletionM)
    (h : c = ⟨L.filter (fun s => pyStartsWith s pv), false⟩) :
    (∀ v ∈ c.values, pyStartsWith v pv = true) ∧ c.values.Nodup
    ∧ ∃ M ∈ candidateLists, c.values = M.filter (fun s => pyStartsWith s pv) := by
  subst h
  exact ⟨fun v hv => (List.mem_filter.mp hv).2, hnd.filter _, L, hmem, rfl⟩

/-- A successful `FRAMEWORKS` lookup yields one of the declared candidate
lists, and that list has no duplicates. -/
theorem dictLookup_FRAMEWORKS (l : String) (fws : List String)
    (h : dictLookup l FRAMEWORKS = some fws) :
    fws ∈ candidateLists ∧ fws.Nodup := by
  simp only [FRAMEWORKS, dictLookup] at h
  split_ifs at h <;>
    first
      | exact Option.noConfusion h
      | (injection h with h; subst h; exact ⟨by decide, by decide⟩)

/-- A successful `GITHUB_REPOS` lookup yields one of the declared candidate
lists, and that list has no duplicates. -/
theorem dictLookup_GITHUB_REPOS (l : String) (rs : List String)
    (h : dictLookup l GITHUB_REPOS = some rs) :
    rs ∈ candidateLists ∧ rs.Nodup := by
  simp only [GITHUB_REPOS, dictLookup] at h
  split_ifs at h <;>
    first
      | exact Option.noConfusion h
      | (injection h with h; subst h; exact ⟨by decide, by decide⟩)

/-- C2: whenever `handle_completion` produces a completion, every candidate
string starts with the typed value (case-sensitively), the candidates are
the prefix-filter of one of the declared static lists (hence appear in
declared order), and the result has no duplicates. -/
theorem handle_completion_prefix_order_nodup (ref : CompletionRef)
    (argument : CompletionArgumentM) (context : CompletionContextM)
    (c : CompletionM)
    (h : handle_completion ref argument context = some c) :
    (∀ v ∈ c.values, pyStartsWith v argument.value = true)
    ∧ c.values.Nodup
    ∧ ∃ L ∈ candidateLists,
        c.values = L.filter (fun s => pyStartsWith s argument.value) := by
  cases ref with
  | prompt name =>
    simp only [handle_completion] at h
    split_ifs at h
    any_goals
      exact completion_leaf _ argument.value (by decide) (by decide) c
        (Option.some.inj h).symm
    split at h
    · rename_i p ctxArgs
      split at h
      · rename_i fws heq
        obtain ⟨hmem, hnd⟩ := dictLookup_FRAMEWORKS _ _ heq
        exact completion_leaf fws argument.value hnd hmem c
          (Option.some.inj h).symm
      · exact Option.noConfusion h
    · exact Option.noConfusion h
  | resourceTemplate uri =>
    simp only [handle_completion] at h
    split_ifs at h
    any_goals
      exact completion_leaf _ argument.value (by decide) (by decide) c
        (Option.some.inj h).symm
    split at h
    · rename_i p ctxArgs
      split at h
      · rename_i rs heq
        obtain ⟨hmem, hnd⟩ := dictLookup_GITHUB_REPOS _ _ heq
        exact completion_leaf rs argument.value hnd hmem c
          (Option.some.inj h).symm
      · exact Option.noConfusion h
    · exact Option.noConfusion h

/-- C2 witness: the invariants hold at the concrete query
(`review_code`, `language`, typed value `p`), whose result is `[python]`. -/
theorem handle_completion_prefix_order_nodup_witness :
    (∀ v ∈ (CompletionM.mk ["python"] false).values, pyStartsWith v "p" = true)
    ∧ (CompletionM.mk ["python"] false).values.Nodup
    ∧ ∃ L ∈ candidateLists,
        (CompletionM.mk ["python"] false).values
          = L.filter (fun s => pyStartsWith s "p") :=
  handle_completion_prefix_order_nodup (.prompt "review_code")
    ⟨"language", "p"⟩ none ⟨["python"], false⟩ (by decide)

-- === DOCUMENT STORE (src/mcp_server.py lines 33-40) ===

/-- The in-memory document table, a Python dict keyed by document id,
modelled as an association list (Python dict keys are unique; `dictLookup`
finds the first — hence only — binding). -/
abbrev Docs := List (String × String)

/-- The initial `docs` dictionary from the source. -/
def docs : Docs :=
  [("deposition.md", "This deposition covers the testimony of Angela Smith, P.E."),
   ("report.pdf", "The report details the state of a 20m condenser tower."),
   ("financials.docx", "These financials outline the project\x27s budget and expenditures."),
   ("outlook.pdf", "This document presents the projected future performance of the system."),
   ("plan.md", "The plan outlines the steps for the project\x27s implementation."),
   ("spec.txt", "These specifications define the technical requirements for the equipment.")]

/-- Python dictionary assignment `d[k] = v` on the association list: update
the (unique) binding in place, or append a fresh one. -/
def setDoc (doc_id content : String) : Docs → Docs
  | [] => [(doc_id, content)]
  | (k, v) :: rest =>
    if k = doc_id then (k, content) :: rest
    else (k, v) :: setDoc doc_id content rest

/-- `read_document` (the `read_doc_contents` tool, lines 43-53): the first
component is the returned content or the raised `ValueError` message, the
second the store after the call. -/
def read_document (d : Docs) (doc_id : String) : Except String String × Docs :=
  match dictLookup doc_id d with
  | none => (.error ("Doc with id " ++ doc_id ++ " not found"), d)
  | some content => (.ok content, d)

-- === PYTHON str.replace ===

/-- The scan of Python `str.replace` for a non-empty pattern: at each
position, if the pattern matches, emit the replacement and skip past the
match, otherwise keep the character — every non-overlapping occurrence is
replaced, leftmost first. -/
def replAux (old new : List Char) : List Char → List Char
  | [] => []
  | c :: rest =>
    if List.isPrefixOf old (c :: rest) then
      new ++ replAux old new (rest.drop (old.length - 1))
    else c :: replAux old new rest
termination_by l => l.length
decreasing_by
  all_goals simp only [List.length_drop, List.length_cons]
  all_goals omega

/-- Python `str.replace(old, new)` on character lists. For the empty pattern
Python inserts the replacement before every character and once at the end. -/
def pyReplaceL : List Char → List Char → List Char → List Char
  | s, [], new => new ++ s.flatMap (fun c => c :: new)
  | s, c :: os, new => replAux (c :: os) new s

/-- Python `str.replace` on strings. -/
def pyReplace (s old new : String) : String :=
  ⟨pyReplaceL s.data old.data new.data⟩

/-- Python substring containment `sub in s`, on character lists. -/
def hasSubL : List Char → List Char → Bool
  | [], sub => sub.isEmpty
  | c :: rest, sub => List.isPrefixOf sub (c :: rest) || hasSubL rest sub

/-- Python substring containment `sub in s`, on strings. -/
def strContains (s sub : String) : Bool := hasSubL s.data sub.data

/-- `edit_document` (lines 131-146): raises `ValueError` when the id is
absent (store untouched), otherwise replaces every non-overlapping
occurrence of `old_str` by `new_str` in that document's content and reports
success. -/
def edit_document (d : Docs) (doc_id old_str new_str : String) :
    Except String String × Docs :=
  match dictLookup doc_id d with
  | none => (.error ("Doc with id " ++ doc_id ++ " not found"), d)
  | some content =>
    (.ok ("Successfully updated document " ++ doc_id),
     setDoc doc_id (pyReplace content old_str new_str) d)

-- === STORE LEMMAS ===

/-- After `setDoc`, looking up the written key yields the written value. -/
theorem dictLookup_setDoc_self (doc_id c : String) :
    ∀ d : Docs, dictLookup doc_id (setDoc doc_id c d) = some c := by
  intro d
  induction d with
  | nil => simp [setDoc, dictLookup]
  | cons kv rest ih =>
    obtain ⟨k, v⟩ := kv
    by_cases hk : k = doc_id
    · simp [setDoc, dictLookup, hk]
    · simp [setDoc, dictLookup, hk, ih]

/-- `setDoc` does not change the binding of any other key. -/
theorem dictLookup_setDoc_ne (other doc_id c : String) (hne : other ≠ doc_id) :
    ∀ d : Docs, dictLookup other (setDoc doc_id c d) = dictLookup other d := by
  intro d
  induction d with
  | nil => simp [setDoc, dictLookup, Ne.symm hne]
  | cons kv rest ih =>
    obtain ⟨k, v⟩ := kv
    by_cases hk : k = doc_id
    · subst hk
      simp [setDoc, dictLookup, Ne.symm hne]
    · simp [setDoc, dictLookup, hk, ih]

/-- Writing back the value a key already has leaves the store unchanged. -/
theorem setDoc_lookup_self (doc_id v : String) :
    ∀ d : Docs, dictLookup doc_id d = some v → setDoc doc_id v d = d := by
  intro d
  induction d with
  | nil => intro h; exact Option.noConfusion h
  | cons kv rest ih =>
    obtain ⟨k, w⟩ := kv
    intro h
    by_cases hk : k = doc_id
    · simp only [dictLookup, if_pos hk] at h
      obtain rfl := Option.some.inj h
      simp [setDoc, hk]
    · simp only [dictLookup, if_neg hk] at h
      simp [setDoc, hk, ih h]

/-- Two successive writes to the same key collapse to the second. -/
theorem setDoc_setDoc (doc_id a b : String) :
    ∀ d : Docs, setDoc doc_id b (setDoc doc_id a d) = setDoc doc_id b d := by
  intro d
  induction d with
  | nil => simp [setDoc]
  | cons kv rest ih =>
    obtain ⟨k, v⟩ := kv
    by_cases hk : k = doc_id
    · simp [setDoc, hk]
    · simp [setDoc, hk, ih]

/-- If the pattern is nowhere in the text, the replace scan is the
identity. -/
theorem replAux_no_occurrence (old new : List Char) :
    ∀ s : List Char, hasSubL s old = false → replAux old new s = s := by
  intro s
  induction s with
  | nil => intro _; simp [replAux]
  | cons c rest ih =>
    intro h
    simp only [hasSubL, Bool.or_eq_false_iff] at h
    rw [replAux, if_neg (by simp [h.1]), ih h.2]

/-- The empty pattern is a substring of every text. -/
theorem hasSubL_nil_right (s : List Char) : hasSubL s [] = true := by
  cases s <;> simp [hasSubL, List.isEmpty]

/-- Python `str.replace` with a pattern that does not occur returns the
string unchanged. -/
theorem pyReplace_no_occurrence (s old new : String)
    (h : strContains s old = false) : pyReplace s old new = s := by
  unfold strContains at h
  unfold pyReplace
  cases hod : old.data with
  | nil =>
    rw [hod, hasSubL_nil_right] at h
    exact Bool.noConfusion h
  | cons c os =>
    rw [hod] at h
    rw [show pyReplaceL s.data (c :: os) new.data
          = replAux (c :: os) new.data s.data from rfl,
        replAux_no_occurrence _ _ _ h]

-- === C3 ===

/-- C3: `edit_document` fails on an absent id and leaves the whole store
untouched; on a present id it reports success, rewrites exactly that
document to the replace-all-non-overlapping-occurrences result, leaves
every other document unchanged, and when `old_str` does not occur in the
content the store stays byte-identical while the call still succeeds. -/
theorem edit_document_spec (d : Docs) (doc_id old_str new_str : String) :
    (dictLookup doc_id d = none →
      edit_document d doc_id old_str new_str
        = (.error ("Doc with id " ++ doc_id ++ " not found"), d))
    ∧ ∀ content, dictLookup doc_id d = some content →
        (edit_document d doc_id old_str new_str).1
            = .ok ("Successfully updated document " ++ doc_id)
        ∧ dictLookup doc_id (edit_document d doc_id old_str new_str).2
            = some (pyReplace content old_str new_str)
        ∧ (∀ other, other ≠ doc_id →
            dictLookup other (edit_document d doc_id old_str new_str).2
              = dictLookup other d)
        ∧ (strContains content old_str = false →
            (edit_document d doc_id old_str new_str).2 = d) := by
  unfold edit_document
  cases hlk : dictLookup doc_id d with
  | none =>
    refine ⟨fun _ => rfl, fun content hc => Option.noConfusion hc⟩
  | some content =>
    refine ⟨fun hc => Option.noConfusion hc, fun content' hc => ?_⟩
    obtain rfl := Option.some.inj hc
    refine ⟨rfl, dictLookup_setDoc_self _ _ _,
      fun other hne => dictLookup_setDoc_ne _ _ _ hne _, fun hno => ?_⟩
    show setDoc doc_id (pyReplace content old_str new_str) d = d
    rw [pyReplace_no_occurrence _ _ _ hno]
    exact setDoc_lookup_self _ _ _ hlk

/-- C3 witness: editing `report.pdf` with a pattern that does not occur
succeeds and leaves the store byte-identical. -/
theorem edit_document_spec_witness :
    (edit_document docs "report.pdf" "zzz" "qqq").1
        = .ok "Successfully updated document report.pdf"
    ∧ (edit_document docs "report.pdf" "zzz" "qqq").2 = docs :=
  ⟨((edit_document_spec docs "report.pdf" "zzz" "qqq").2
      "The report details the state of a 20m condenser tower." rfl).1,
   ((edit_document_spec docs "report.pdf" "zzz" "qqq").2
      "The report details the state of a 20m condenser tower." rfl).2.2.2
      (by decide)⟩

-- === C7 ===

/-- C7: `read_doc_contents` fails exactly when the id is absent from the
store, otherwise returns the stored content verbatim, and in both cases
leaves the store unchanged. -/
theorem read_document_spec (d : Docs) (doc_id : String) :
    ((∃ e, (read_document d doc_id).1 = .error e) ↔ dictLookup doc_id d = none)
    ∧ (∀ content, dictLookup doc_id d = some content →
        (read_document d doc_id).1 = .ok content)
    ∧ (read_document d doc_id).2 = d := by
  unfold read_document
  cases hlk : dictLookup doc_id d with
  | none =>
    exact ⟨⟨fun _ => rfl,
        fun _ => ⟨"Doc with id " ++ doc_id ++ " not found", rfl⟩⟩,
      fun content hc => Option.noConfusion hc, rfl⟩
  | some content =>
    refine ⟨⟨?_, fun hc => Option.noConfusion hc⟩, ?_, rfl⟩
    · rintro ⟨e, he⟩
      exact Except.noConfusion he
    · intro content' hc
      obtain rfl := Option.some.inj hc
      rfl

/-- C7 witness: reading `report.pdf` from the initial store returns its
content and leaves the store unchanged; the failure condition is falsified
by the successful lookup. -/
theorem read_document_spec_witness :
    (read_document docs "report.pdf").1
        = .ok "The report details the state of a 20m condenser tower."
    ∧ (read_document docs "report.pdf").2 = docs :=
  ⟨(read_document_spec docs "report.pdf").2.1
      "The report details the state of a 20m condenser tower." rfl,
   (read_document_spec docs "report.pdf").2.2⟩

-- === C4 ROUND-TRIP MACHINERY ===

/-- Replacing `foo` by `bar` never puts a character other than `b` at the
head unless the input already had it there: a non-`b` head of the output is
the untouched head of the input. -/
theorem replAux_foo_bar_head (u : List Char) (ch : Char) (v : List Char)
    (hne : ch ≠ 'b')
    (h : replAux ['f', 'o', 'o'] ['b', 'a', 'r'] u = ch :: v) :
    ∃ w, u = ch :: w ∧ v = replAux ['f', 'o', 'o'] ['b', 'a', 'r'] w := by
  cases u with
  | nil =>
    rw [replAux] at h
    exact List.noConfusion h
  | cons c rest =>
    rw [replAux] at h
    split at h
    · simp only [List.cons_append, List.nil_append] at h
      exact absurd (List.cons.inj h).1.symm hne
    · obtain ⟨rfl, rfl⟩ := List.cons.inj h
      exact ⟨rest, rfl, rfl⟩

/-- If `bar` is a prefix of the output of the foo→bar replacement with one
untouched character in front, then `bar` was already there in the input. -/
theorem bar_into_replAux (c : Char) (t : List Char)
    (h : List.isPrefixOf ['b', 'a', 'r']
        (c :: replAux ['f', 'o', 'o'] ['b', 'a', 'r'] t) = true) :
    List.isPrefixOf ['b', 'a', 'r'] (c :: t) = true := by
  simp only [List.isPrefixOf, Bool.and_eq_true, beq_iff_eq] at h
  obtain ⟨rfl, h⟩ := h
  cases hra : replAux ['f', 'o', 'o'] ['b', 'a', 'r'] t with
  | nil =>
    rw [hra] at h
    exact absurd h (by decide)
  | cons a0 v =>
    rw [hra] at h
    simp only [List.isPrefixOf, Bool.and_eq_true, beq_iff_eq] at h
    obtain ⟨rfl, h⟩ := h
    obtain ⟨w, rfl, rfl⟩ := replAux_foo_bar_head t _ _ (by decide) hra
    cases hrb : replAux ['f', 'o', 'o'] ['b', 'a', 'r'] w with
    | nil =>
      rw [hrb] at h
      exact absurd h (by decide)
    | cons r0 v2 =>
      rw [hrb] at h
      simp only [List.isPrefixOf, Bool.and_eq_true, beq_iff_eq] at h
      obtain ⟨rfl, -⟩ := h
      obtain ⟨w2, rfl, -⟩ := replAux_foo_bar_head w _ _ (by decide) hrb
      simp [List.isPrefixOf]

/-- Unfolding `replAux` at a matching position. -/
theorem replAux_cons_pos (old new : List Char) (c : Char) (rest : List Char)
    (h : List.isPrefixOf old (c :: rest) = true) :
    replAux old new (c :: rest)
      = new ++ replAux old new (rest.drop (old.length - 1)) := by
  rw [replAux, if_pos h]

/-- Unfolding `replAux` at a non-matching position. -/
theorem replAux_cons_neg (old new : List Char) (c : Char) (rest : List Char)
    (h : List.isPrefixOf old (c :: rest) = false) :
    replAux old new (c :: rest) = c :: replAux old new rest := by
  rw [replAux, if_neg (by simp [h])]

/-- Core round trip: on a text without `bar`, replacing foo→bar and then
bar→foo is the identity. -/
theorem replAux_roundtrip :
    ∀ n : Nat, ∀ s : List Char, s.length ≤ n →
      hasSubL s ['b', 'a', 'r'] = false →
      replAux ['b', 'a', 'r'] ['f', 'o', 'o']
        (replAux ['f', 'o', 'o'] ['b', 'a', 'r'] s) = s := by
  intro n
  induction n with
  | zero =>
    intro s hs _
    obtain rfl : s = [] := List.eq_nil_of_length_eq_zero (Nat.le_zero.mp hs)
    rw [replAux, replAux]
  | succ n ih =>
    intro s hs hbar
    cases s with
    | nil => rw [replAux, replAux]
    | cons c t =>
      by_cases hp : List.isPrefixOf ['f', 'o', 'o'] (c :: t) = true
      · cases t with
        | nil => simp [List.isPrefixOf] at hp
        | cons c2 t2 =>
          cases t2 with
          | nil => simp [List.isPrefixOf] at hp
          | cons c3 t3 =>
            simp only [List.isPrefixOf, Bool.and_eq_true, beq_iff_eq,
              List.isPrefixOf_nil_left, and_true] at hp
            obtain ⟨rfl, rfl, rfl⟩ := hp
            rw [replAux_cons_pos _ _ _ _ (by simp [List.isPrefixOf])]
            rw [show ('o' :: 'o' :: t3).drop
                  (['f', 'o', 'o'].length - 1) = t3 from rfl]
            simp only [List.cons_append, List.nil_append]
            rw [replAux_cons_pos _ _ _ _ (by simp [List.isPrefixOf])]
            rw [show ('a' :: 'r' :: replAux ['f', 'o', 'o'] ['b', 'a', 'r'] t3).drop
                  (['b', 'a', 'r'].length - 1)
                = replAux ['f', 'o', 'o'] ['b', 'a', 'r'] t3 from rfl]
            simp only [List.cons_append, List.nil_append, List.cons.injEq,
              true_and]
            have ht3 : hasSubL t3 ['b', 'a', 'r'] = false := by
              simp only [hasSubL, Bool.or_eq_false_iff] at hbar
              exact hbar.2.2.2
            exact ih t3 (by simp only [List.length_cons] at hs; omega) ht3
      · have hp' : List.isPrefixOf ['f', 'o', 'o'] (c :: t) = false :=
          Bool.not_eq_true _ ▸ hp
        rw [replAux_cons_neg _ _ _ _ hp']
        have hbp : List.isPrefixOf ['b', 'a', 'r']
            (c :: replAux ['f', 'o', 'o'] ['b', 'a', 'r'] t) = false := by
          cases hx : List.isPrefixOf ['b', 'a', 'r']
              (c :: replAux ['f', 'o', 'o'] ['b', 'a', 'r'] t) with
          | false => rfl
          | true =>
            have hin := bar_into_replAux c t hx
            rw [hasSubL, hin] at hbar
            exact absurd hbar (by simp)
        rw [replAux_cons_neg _ _ _ _ hbp]
        have ht : hasSubL t ['b', 'a', 'r'] = false := by
          simp only [hasSubL, Bool.or_eq_false_iff] at hbar
          exact hbar.2
        rw [ih t (by simp only [List.length_cons] at hs; omega) ht]

/-- String-level round trip for foo→bar then bar→foo. -/
theorem pyReplace_foo_bar_roundtrip (content : String)
    (hbar : strContains content "bar" = false) :
    pyReplace (pyReplace content "foo" "bar") "bar" "foo" = content := by
  show (⟨replAux ['b', 'a', 'r'] ['f', 'o', 'o']
      (replAux ['f', 'o', 'o'] ['b', 'a', 'r'] content.data)⟩ : String) = content
  rw [replAux_roundtrip content.data.length content.data (Nat.le_refl _) hbar]

-- === C4 ===

/-- C4: for any stored document whose content contains no occurrence of
`bar` (so the only `bar`s ever present are the ones the first edit
introduces, and the only `foo`s are the occurrences being edited),
`edit_document(id, foo, bar)` followed by `edit_document(id, bar, foo)`
restores the entire store exactly. -/
theorem edit_document_roundtrip (d : Docs) (doc_id content : String)
    (hl : dictLookup doc_id d = some content)
    (hbar : strContains content "bar" = false) :
    (edit_document (edit_document d doc_id "foo" "bar").2
      doc_id "bar" "foo").2 = d := by
  have h1 : (edit_document d doc_id "foo" "bar").2
      = setDoc doc_id (pyReplace content "foo" "bar") d := by
    unfold edit_document
    rw [hl]
  rw [h1]
  unfold edit_document
  rw [dictLookup_setDoc_self doc_id (pyReplace content "foo" "bar") d]
  show setDoc doc_id (pyReplace (pyReplace content "foo" "bar") "bar" "foo")
      (setDoc doc_id (pyReplace content "foo" "bar") d) = d
  rw [pyReplace_foo_bar_roundtrip content hbar, setDoc_setDoc]
  exact setDoc_lookup_self _ _ _ hl

/-- C4 witness: the round trip restores the initial store on `plan.md`,
whose content contains no `bar`. -/
theorem edit_document_roundtrip_witness :
    (edit_document (edit_document docs "plan.md" "foo" "bar").2
      "plan.md" "bar" "foo").2 = docs :=
  edit_document_roundtrip docs "plan.md"
    "The plan outlines the steps for the project\x27s implementation."
    (by decide) (by decide)

-- === CALLEE-INITIATED SUB-REQUESTS (tools) ===

/-- `TextContent(type=..., text=...)` as the tools build it. -/
structure TextContentM where
  text : String
  type : String
deriving DecidableEq

/-- The content of a sampling result: text, or some other content shape
carrying its string rendering (what `str(result.content)` would yield). -/
inductive SamplingContent where
  | text (t : String)
  | other (r : String)
deriving DecidableEq

/-- `CreateMessageResult`: role, content and model identifier. -/
structure CreateMessageResultM where
  role : String
  content : SamplingContent
  model : String
deriving DecidableEq

/-- `create_story` (src/mcp_server.py lines 147-181). The nested
`ctx.session.create_message` invoke is passed in already resolved;
`Except.error e` models the caller-side sampling handler having raised,
which the tool's try/except converts to a user-facing error string. -/
def create_story (topic : String)
    (sample : Except String CreateMessageResultM) : Except String String :=
  match sample with
  | .error e => .ok ("Error asking client to generate story: " ++ e)
  | .ok result =>
    match result.content with
    | .text t => .ok t
    | .other r => .ok r

/-- `analyze_project` (src/mcp_server.py lines 280-306). The `list_roots`
invoke is passed in resolved (`none` models a falsy roots result, `some`
the list of root URIs); the URI parsing and the `path.glob` count are the
environment functions `uriPath` and `globPyCount`. There is no try/except
in this tool: a failed `list_roots` propagates. -/
def analyze_project (roots : Except String (Option (List String)))
    (uriPath : String → String) (globPyCount : String → Nat) :
    Except String TextContentM :=
  match roots with
  | .error e => .error e
  | .ok none => .ok ⟨"No project roots found", "text"⟩
  | .ok (some []) => .ok ⟨"No project roots found", "text"⟩
  | .ok (some (root :: _)) =>
    .ok ⟨"Found " ++ toString (globPyCount (uriPath root))
        ++ " Python files in project at " ++ uriPath root, "text"⟩

/-- `OrderPreferences` (src/mcp_server.py lines 307-315). -/
structure OrderPreferences where
  want_toppings : Bool
  toppings : String
deriving DecidableEq

/-- The result of `ctx.elicit`: an action string (`accept`, `decline` or
`cancel`) plus, on accept, the schema-validated data. -/
structure ElicitToolResult where
  action : String
  data : Option OrderPreferences
deriving DecidableEq

/-- `order_pizza` (src/mcp_server.py lines 318-354). The elicitation invoke
is passed in resolved; `Except.error` models the caller-side handler having
raised, converted by the try/except into a user-facing error string.
Python's `if result.action == "accept" and result.data:` is split on
whether `data` is present. -/
def order_pizza (size : String) (elicit : Except String ElicitToolResult) :
    Except String String :=
  match elicit with
  | .error e => .ok ("Error processing pizza order: " ++ e)
  | .ok result =>
    match result.data with
    | some d =>
      if result.action = "accept" then
        if d.want_toppings then
          .ok ("Order confirmed: " ++ size ++ " pizza with " ++ d.toppings)
        else
          .ok ("Order confirmed: " ++ size ++ " plain pizza")
      else if result.action = "decline" then
        .ok "Order declined: No pizza ordered"
      else
        .ok "Order cancelled"
    | none =>
      if result.action = "decline" then
        .ok "Order declined: No pizza ordered"
      else
        .ok "Order cancelled"

-- === C5 ===

/-- C5 (amended): `create_story` and `order_pizza` catch a failed nested
sub-request and return a user-facing error string as their successful
result; `analyze_project` has no try/except, so the failed `list_roots`
invoke propagates out of the tool instead of being converted. -/
theorem subrequest_failure_handling (e topic size : String)
    (uriPath : String → String) (globPyCount : String → Nat) :
    create_story topic (.error e)
        = .ok ("Error asking client to generate story: " ++ e)
    ∧ order_pizza size (.error e)
        = .ok ("Error processing pizza order: " ++ e)
    ∧ analyze_project (.error e) uriPath globPyCount = .error e :=
  ⟨rfl, rfl, rfl⟩

/-- C5 witness: the failure handling evaluated at a concrete failed
sub-request outcome. -/
theorem subrequest_failure_handling_witness :
    create_story "dragons" (.error "boom")
        = .ok ("Error asking client to generate story: " ++ "boom")
    ∧ order_pizza "large" (.error "boom")
        = .ok ("Error processing pizza order: " ++ "boom")
    ∧ analyze_project (.error "boom") (fun u => u) (fun _ => 0)
        = .error "boom" :=
  subrequest_failure_handling "boom" "dragons" "large" (fun u => u) (fun _ => 0)

/-- C5 counterexample: when the caller's ListRoots handler raises,
`analyze_project` does not catch the failed invoke and does not return a
user-facing error string — the error propagates as the tool's outcome. -/
theorem analyze_project_uncaught_error :
    analyze_project (.error "handler raised") (fun u => u) (fun _ => 0)
      = .error "handler raised" :=
  rfl

-- === C6 ===

/-- C6: an empty roots answer — whether the roots object is missing/falsy
or carries an empty root list — makes `analyze_project` return the defined
text `No project roots found` rather than fail. -/
theorem analyze_project_empty_roots (uriPath : String → String)
    (globPyCount : String → Nat) :
    analyze_project (.ok none) uriPath globPyCount
        = .ok ⟨"No project roots found", "text"⟩
    ∧ analyze_project (.ok (some [])) uriPath globPyCount
        = .ok ⟨"No project roots found", "text"⟩ :=
  ⟨rfl, rfl⟩

/-- C6 witness: the two empty-roots outcomes at a concrete environment. -/
theorem analyze_project_empty_roots_witness :
    analyze_project (.ok none) (fun u => u) (fun _ => 0)
        = .ok ⟨"No project roots found", "text"⟩
    ∧ analyze_project (.ok (some [])) (fun u => u) (fun _ => 0)
        = .ok ⟨"No project roots found", "text"⟩ :=
  analyze_project_empty_roots (fun u => u) (fun _ => 0)

-- === CLIENT CALLBACKS ===

/-- A Python value inside an `ElicitResult.content` dict. -/
inductive PyVal where
  | pybool (b : Bool)
  | pystr (s : String)
deriving DecidableEq

/-- `ElicitResult(action=..., content=...)` as the client builds it. -/
structure ElicitResultM where
  action : String
  content : List (String × PyVal)
deriving DecidableEq

/-- `mock_elicitation` (src/elicitation_client.py lines 15-30): the user's
console reply and the follow-up toppings reply are the two inputs; a
Python function that falls off the end returns `None`, modelled `none`. -/
def mock_elicitation (user_input toppings_input : String) :
    Option ElicitResultM :=
  if (["no", "decline", "n"]).contains (pyLower (pyStrip user_input)) then
    some ⟨"decline", [("want_toppings", .pybool false)]⟩
  else if (["yes", "accept", "y"]).contains (pyLower (pyStrip user_input)) then
    some ⟨"accept", [("want_toppings", .pybool true),
      ("toppings", .pystr (pyStrip toppings_input))]⟩
  else
    none

-- === C9 ===

/-- C9: any user reply that normalizes (strip then lowercase) to neither a
recognized decline word nor a recognized accept word makes
`mock_elicitation` return no result at all (Python `None`) instead of an
accept/decline/cancel elicitation outcome. -/
theorem mock_elicitation_unrecognized_none (user_input toppings_input : String)
    (hdec : (["no", "decline", "n"]).contains (pyLower (pyStrip user_input))
      = false)
    (hacc : (["yes", "accept", "y"]).contains (pyLower (pyStrip user_input))
      = false) :
    mock_elicitation user_input toppings_input = none := by
  unfold mock_elicitation
  split_ifs with h1 h2
  · rw [hdec] at h1
    exact Bool.noConfusion h1
  · rw [hacc] at h2
    exact Bool.noConfusion h2
  · rfl

/-- C9 witness: the reply `maybe` is neither an accept nor a decline word,
and the callback returns `none` on it. -/
theorem mock_elicitation_unrecognized_none_witness :
    mock_elicitation "maybe" "onions" = none :=
  mock_elicitation_unrecognized_none "maybe" "onions" (by decide) (by decide)

/-- `SamplingMessage(role=..., content=...)`. -/
structure SamplingMessageM where
  role : String
  content : SamplingContent
deriving DecidableEq

/-- `CreateMessageRequestParams`: the sampling request's message list and
`max_tokens` bound (the fields the server sets in `create_story`). -/
structure CreateMessageParamsM where
  messages : List SamplingMessageM
  maxTokens : Nat
deriving DecidableEq

/-- The fixed story text of `mock_sampler` (src/mcp_client.py lines
79-83), the concatenation of its three adjacent f-strings. -/
def mock_llm_response : String :=
  "In a world of shimmering code, a brave little function set out to find the legendary Golden Bug. It traversed treacherous loops and navigated complex conditionals. Finally, it found not a bug, but a feature, more valuable than any treasure."

/-- `mock_sampler` (src/mcp_client.py lines 69-92): ignores the request
context (of any type) and the parameters, and returns the fixed assistant
message with model `openai/gpt-4o-mini`. -/
def mock_sampler {α : Type} (context : α) (params : CreateMessageParamsM) :
    CreateMessageResultM :=
  ⟨"assistant", .text mock_llm_response, "openai/gpt-4o-mini"⟩

-- === C10 ===

/-- C10: `mock_sampler` is a constant function — any two request contexts
(of any types) and any two parameter values (any messages, any maxTokens)
produce the identical result — and that result has role `assistant`, the
fixed story text, and model identifier `openai/gpt-4o-mini`. -/
theorem mock_sampler_constant {α β : Type} (c1 : α) (c2 : β)
    (p1 p2 : CreateMessageParamsM) :
    mock_sampler c1 p1 = mock_sampler c2 p2
    ∧ (mock_sampler c1 p1).role = "assistant"
    ∧ (mock_sampler c1 p1).content = .text mock_llm_response
    ∧ (mock_sampler c1 p1).model = "openai/gpt-4o-mini" :=
  ⟨rfl, rfl, rfl, rfl⟩

/-- C10 witness: two concrete contexts of different types and two concrete
parameter values give the identical fixed result. -/
theorem mock_sampler_constant_witness :
    mock_sampler (0 : Nat) (CreateMessageParamsM.mk [] 100)
        = mock_sampler "ctx" (CreateMessageParamsM.mk
            [⟨"user", .text "Write a story"⟩] 50)
    ∧ (mock_sampler (0 : Nat) (CreateMessageParamsM.mk [] 100)).role
        = "assistant"
    ∧ (mock_sampler (0 : Nat) (CreateMessageParamsM.mk [] 100)).content
        = .text mock_llm_response
    ∧ (mock_sampler (0 : Nat) (CreateMessageParamsM.mk [] 100)).model
        = "openai/gpt-4o-mini" :=
  mock_sampler_constant (0 : Nat) "ctx" (CreateMessageParamsM.mk [] 100)
    (CreateMessageParamsM.mk [⟨"user", .text "Write a story"⟩] 50)

/-- C1 counterexample: with the unregistered sibling context
`language = ruby` the handler returns `none` (Python `None`), not an empty
candidate list: there is no `CompletionM` value in the result at all. -/
theorem handle_completion_unregistered_context_returns_none :
    handle_completion (.prompt "setup_project") ⟨"framework", ""⟩
        (some [("language", "ruby")]) = none
    ∧ ∀ c : CompletionM,
        handle_completion (.prompt "setup_project") ⟨"framework", ""⟩
          (some [("language", "ruby")]) ≠ some c := by
  refine ⟨by decide, ?_⟩
  intro c h
  rw [show handle_completion (.prompt "setup_project") ⟨"framework", ""⟩
        (some [("language", "ruby")]) = none from by decide] at h
  exact Option.noConfusion h
